import Mathlib

/-!
Verification of the constraint-tracking subsystem of draft-kings-fun
(`src/draftfast/lineup_contraints.py`).

The Python module is embedded shallowly:

* Python exceptions become an `Err` sum type (`validation` mirrors
  `ConstraintException`, `conflict` mirrors `ConstraintConflictException`).
* Entity identifiers (players) are `String`s; Python `set`s become
  `Finset String`; Python lists become `List`.
* Each mutating method of `LineupConstraints` becomes a function returning
  `LineupConstraints × Option Err`: the returned state is the object's state
  at the moment the method returns or raises.  In the source every `raise`
  happens before any mutation, so every error branch returns the input
  state unchanged — the returned state is written following the statement
  order of the Python body.
* `PlayerGroupConstraint.__init__` becomes the fallible constructor
  `mkPlayerGroupConstraint` returning `Except Err PlayerGroupConstraint`.
-/

/-- Error taxonomy: `validation` is `ConstraintException`,
`conflict` is `ConstraintConflictException`. -/
inductive Err where
  | validation (msg : String)
  | conflict (msg : String)
deriving DecidableEq, Repr

/-- A `PlayerGroupConstraint` after successful construction: the player list
as passed in, and the `exact` / `lo` / `hi` fields (`None` in Python becomes
`Option.none`). -/
structure PlayerGroupConstraint where
  players : List String
  exact : Option Int
  lo : Option Int
  hi : Option Int
deriving DecidableEq, Repr

/-- The bound argument of `PlayerGroupConstraint.__init__`: a bare int, or a
two-element list/tuple `(lo, hi)`. -/
inductive Bound where
  | exactB (e : Int)
  | rangeB (lo hi : Int)
deriving DecidableEq, Repr

/-- `PlayerGroupConstraint.__eq__`: player sets equal (order-independent) and
the `exact`, `lo`, `hi` fields equal. -/
def PlayerGroupConstraint.eqPGC (a b : PlayerGroupConstraint) : Bool :=
  decide (a.players.toFinset = b.players.toFinset) &&
    a.exact == b.exact && a.lo == b.lo && a.hi == b.hi

/-- `p in c` for a `PlayerGroupConstraint` (`PlayerConstraint.__contains__`). -/
def PlayerGroupConstraint.mem (c : PlayerGroupConstraint) (p : String) : Bool :=
  c.players.contains p

/-- `PlayerGroupConstraint.__init__` (including the `PlayerConstraint`
super-constructor): empty-group and duplicate checks first, then the
mode-specific bound sanity checks, in the source's order of `raise`s. -/
def mkPlayerGroupConstraint (players : List String) (bound : Bound) :
    Except Err PlayerGroupConstraint :=
  if players.length = 0 then
    .error (.validation "No players in group")
  else if players.length ≠ players.toFinset.card then
    .error (.validation "Duplicate players in group")
  else
    match bound with
    | .rangeB lo hi =>
      if lo < 1 then
        .error (.validation "Lower bound cannot be less than 1")
      else if hi = lo then
        .error (.validation "Lower bound cannot equal upper bound")
      else if hi < lo then
        .error (.validation "Upper bound cannot be less than lower bound.")
      else if (players.length : Int) < hi ∨ (players.length : Int) < lo then
        .error (.validation
          "Bound cannot be greater than number of players group")
      else
        .ok ⟨players, none, some lo, some hi⟩
    | .exactB e =>
      if e ≤ 0 then
        .error (.validation "Exact bound may not less than or equal to zero")
      else if (players.length : Int) ≤ e then
        .error (.validation
          "Exact bound may not be greater than or equal to number of players in group")
      else
        .ok ⟨players, some e, none, none⟩

/-- The `LineupConstraints` container: an insertion-ordered list of group
constraints plus the four ban/lock sets. -/
structure LineupConstraints where
  constraints : List PlayerGroupConstraint
  banned : Finset String
  locked : Finset String
  banned_for_exposure : Finset String
  locked_for_exposure : Finset String
deriving DecidableEq

/-- `LineupConstraints.__init__`: everything empty. -/
def LineupConstraints.init : LineupConstraints := ⟨[], ∅, ∅, ∅, ∅⟩

/-- `LineupConstraints.__len__`: group-constraint count plus the sizes of the
four sets. -/
def LineupConstraints.len (s : LineupConstraints) : Nat :=
  s.constraints.length + s.locked.card + s.banned.card +
    s.locked_for_exposure.card + s.banned_for_exposure.card

/-- `LineupConstraints.__contains__`: member of any of the four sets, or of
some stored group constraint's player set. -/
def LineupConstraints.mem (s : LineupConstraints) (p : String) : Bool :=
  decide (p ∈ s.locked) || decide (p ∈ s.banned) ||
    decide (p ∈ s.locked_for_exposure) || decide (p ∈ s.banned_for_exposure) ||
    s.constraints.any (fun c => c.mem p)

/-- `LineupConstraints._check_conflicts`: the first player of the new group
already in `locked` or `banned` raises a conflict. -/
def LineupConstraints.check_conflicts (s : LineupConstraints)
    (c : PlayerGroupConstraint) : Option Err :=
  match c.players.find? (fun p => decide (p ∈ s.locked) || decide (p ∈ s.banned)) with
  | some p => some (.conflict ("Ban/lock constraint for " ++ p ++ " already exists"))
  | none => none

/-- `LineupConstraints._add`: conflict check, then duplicate check by
structural equality (`in` on the list uses `PlayerGroupConstraint.__eq__`),
then append. -/
def LineupConstraints.add (s : LineupConstraints) (c : PlayerGroupConstraint) :
    LineupConstraints × Option Err :=
  match s.check_conflicts c with
  | some e => (s, some e)
  | none =>
    if s.constraints.any (fun c2 => c.eqPGC c2) then
      (s, some (.conflict "Duplicate constraint"))
    else
      ({ s with constraints := s.constraints ++ [c] }, none)

/-- `LineupConstraints.is_banned`. -/
def LineupConstraints.is_banned (s : LineupConstraints) (p : String) : Bool :=
  decide (p ∈ s.banned)

/-- `LineupConstraints.is_locked`. -/
def LineupConstraints.is_locked (s : LineupConstraints) (p : String) : Bool :=
  decide (p ∈ s.locked)

/-- `LineupConstraints.add_group_constraint`: construct then `_add`,
propagating construction errors. -/
def LineupConstraints.add_group_constraint (s : LineupConstraints)
    (players : List String) (bound : Bound) : LineupConstraints × Option Err :=
  match mkPlayerGroupConstraint players bound with
  | .error e => (s, some e)
  | .ok c => s.add c

/-- The argument of `ban`/`lock`: a bare string or a list of strings. -/
inductive PlayersArg where
  | one (s : String)
  | many (l : List String)
deriving DecidableEq, Repr

/-- `_iterableify`: a bare string becomes a one-element list; a list is
returned as-is. -/
def iterableify : PlayersArg → List String
  | .one s => [s]
  | .many l => l

/-- `LineupConstraints.ban`: normalize, reject empty input, then reject the
first player already a member of the set (any category); only after every
check passes is the target set updated (set union). -/
def LineupConstraints.ban (s : LineupConstraints) (players : PlayersArg)
    (for_exposure : Bool) : LineupConstraints × Option Err :=
  let ps := iterableify players
  if ps.length = 0 then
    (s, some (.validation "Empty ban group"))
  else
    match ps.find? (fun p => s.mem p) with
    | some p => (s, some (.conflict (p ++ " exists in another constraint")))
    | none =>
      if for_exposure then
        ({ s with banned_for_exposure := s.banned_for_exposure ∪ ps.toFinset }, none)
      else
        ({ s with banned := s.banned ∪ ps.toFinset }, none)

/-- `LineupConstraints.lock`: symmetric to `ban`, targeting the lock sets. -/
def LineupConstraints.lock (s : LineupConstraints) (players : PlayersArg)
    (for_exposure : Bool) : LineupConstraints × Option Err :=
  let ps := iterableify players
  if ps.length = 0 then
    (s, some (.validation "Empty lock group"))
  else
    match ps.find? (fun p => s.mem p) with
    | some p => (s, some (.conflict (p ++ " exists in another constraint")))
    | none =>
      if for_exposure then
        ({ s with locked_for_exposure := s.locked_for_exposure ∪ ps.toFinset }, none)
      else
        ({ s with locked := s.locked ∪ ps.toFinset }, none)

/-- `LineupConstraints.clear_exposure_constraints`: empty the two exposure
sets. -/
def LineupConstraints.clear_exposure_constraints (s : LineupConstraints) :
    LineupConstraints :=
  { s with locked_for_exposure := ∅, banned_for_exposure := ∅ }

/-- `ConstraintIterator`: the constraint list and a cursor `ndx`. -/
structure ConstraintIterator where
  constraints : List PlayerGroupConstraint
  ndx : Nat
deriving DecidableEq, Repr

/-- `ConstraintIterator.__next__`: `StopIteration` becomes `none`; otherwise
the element at `ndx` and the iterator with `ndx` advanced. -/
def ConstraintIterator.next (it : ConstraintIterator) :
    Option (PlayerGroupConstraint × ConstraintIterator) :=
  if h : it.ndx < it.constraints.length then
    some (it.constraints.get ⟨it.ndx, h⟩, ⟨it.constraints, it.ndx + 1⟩)
  else
    none

/-- `LineupConstraints.__iter__`: a fresh iterator over the current
constraint list, cursor at 0. -/
def LineupConstraints.iter (s : LineupConstraints) : ConstraintIterator :=
  ⟨s.constraints, 0⟩

/-- Running an iterator to exhaustion: repeatedly call `next`, collecting the
yielded constraints in order until `StopIteration`. -/
def ConstraintIterator.drain (it : ConstraintIterator) :
    List PlayerGroupConstraint :=
  match h : it.next with
  | none => []
  | some (c, it2) => c :: it2.drain
termination_by it.constraints.length - it.ndx
decreasing_by
  simp only [ConstraintIterator.next] at h
  split at h
  · simp only [Option.some.injEq, Prod.mk.injEq] at h
    obtain ⟨-, h2⟩ := h
    subst h2
    simp
    omega
  · exact absurd h (by simp)

/-! ### Helper lemmas -/

/-- `__contains__` as a disjunction over the five collections. -/
theorem LineupConstraints.mem_iff (s : LineupConstraints) (p : String) :
    s.mem p = true ↔
      p ∈ s.locked ∨ p ∈ s.banned ∨ p ∈ s.locked_for_exposure ∨
      p ∈ s.banned_for_exposure ∨ ∃ c ∈ s.constraints, p ∈ c.players := by
  simp only [LineupConstraints.mem, PlayerGroupConstraint.mem, Bool.or_eq_true,
    decide_eq_true_eq, List.any_eq_true, List.elem_iff]
  tauto

/-- A successfully constructed group constraint carries the player list as
passed in. -/
theorem mkPlayerGroupConstraint_players (players : List String) (bound : Bound)
    (c : PlayerGroupConstraint)
    (h : mkPlayerGroupConstraint players bound = .ok c) : c.players = players := by
  unfold mkPlayerGroupConstraint at h
  split at h
  · exact absurd h (by simp)
  · split at h
    · exact absurd h (by simp)
    · cases bound with
      | rangeB lo hi =>
        simp only at h
        split at h
        · exact absurd h (by simp)
        · split at h
          · exact absurd h (by simp)
          · split at h
            · exact absurd h (by simp)
            · split at h
              · exact absurd h (by simp)
              · cases h; rfl
      | exactB e =>
        simp only at h
        split at h
        · exact absurd h (by simp)
        · split at h
          · exact absurd h (by simp)
          · cases h; rfl

/-- An exhausted-or-running iterator yields exactly the suffix of its
constraint list from the cursor on. -/
theorem ConstraintIterator.drain_eq_drop (it : ConstraintIterator) :
    it.drain = it.constraints.drop it.ndx := by
  rw [ConstraintIterator.drain.eq_def]
  split
  next h =>
    simp only [ConstraintIterator.next] at h
    split at h
    · exact absurd h (by simp)
    next hlt => rw [List.drop_eq_nil_iff.mpr (by omega)]
  next c it2 h =>
    simp only [ConstraintIterator.next] at h
    split at h
    next hlt =>
      simp only [Option.some.injEq, Prod.mk.injEq] at h
      obtain ⟨h1, h2⟩ := h
      have ih := ConstraintIterator.drain_eq_drop it2
      rw [ih, ← h2]
      simp only [List.get_eq_getElem] at h1
      rw [List.drop_eq_getElem_cons hlt, h1]
    · exact absurd h (by simp)
termination_by it.constraints.length - it.ndx
decreasing_by
  subst h2
  simp
  omega

/-- `add_group_constraint` succeeds and appends when the group's players are
free of the non-exposure `banned`/`locked` sets and the group is not a
structural duplicate of a stored constraint. -/
theorem add_group_constraint_ok (s : LineupConstraints) (players : List String)
    (bound : Bound) (c : PlayerGroupConstraint)
    (hmk : mkPlayerGroupConstraint players bound = .ok c)
    (hfree : ∀ p ∈ players, p ∉ s.banned ∧ p ∉ s.locked)
    (hnd : ∀ c1 ∈ s.constraints, c.eqPGC c1 = false) :
    s.add_group_constraint players bound =
      ({ s with constraints := s.constraints ++ [c] }, none) := by
  have hp := mkPlayerGroupConstraint_players players bound c hmk
  simp only [LineupConstraints.add_group_constraint, hmk]
  simp only [LineupConstraints.add, LineupConstraints.check_conflicts]
  have hfind : c.players.find?
      (fun p => decide (p ∈ s.locked) || decide (p ∈ s.banned)) = none := by
    rw [List.find?_eq_none]
    intro p hpmem
    rw [hp] at hpmem
    obtain ⟨h1, h2⟩ := hfree p hpmem
    simp [h1, h2]
  rw [hfind]
  have hany : s.constraints.any (fun c2 => c.eqPGC c2) = false := by
    rw [List.any_eq_false]
    intro c1 h1
    simp [hnd c1 h1]
  rw [hany]
  simp

/-! ### Claims -/

/-- C1: for a non-empty, duplicate-free player set and integer bound `e`,
exact-mode construction of a group constraint succeeds when `0 < e < |P|`
and fails with a `ConstraintException` (validation error) when `e ≤ 0` or
`e ≥ |P|`. -/
theorem exact_mode_validation (players : List String) (e : Int)
    (hne : players ≠ []) (hnd : players.Nodup) :
    (0 < e ∧ e < (players.length : Int) →
      mkPlayerGroupConstraint players (.exactB e) =
        .ok ⟨players, some e, none, none⟩) ∧
    (e ≤ 0 ∨ (players.length : Int) ≤ e →
      ∃ msg, mkPlayerGroupConstraint players (.exactB e) =
        .error (.validation msg)) := by
  have hlen : ¬ players.length = 0 := by
    simpa [List.length_eq_zero] using hne
  have hcard : players.length = players.toFinset.card :=
    (List.toFinset_card_of_nodup hnd).symm
  constructor
  · rintro ⟨h1, h2⟩
    simp only [mkPlayerGroupConstraint, if_neg hlen,
      if_neg (not_not_intro hcard)]
    rw [if_neg (by omega), if_neg (by omega)]
  · intro h
    simp only [mkPlayerGroupConstraint, if_neg hlen,
      if_neg (not_not_intro hcard)]
    rcases h with h | h
    · rw [if_pos h]
      exact ⟨_, rfl⟩
    · by_cases he : e ≤ 0
      · rw [if_pos he]
        exact ⟨_, rfl⟩
      · rw [if_neg he, if_pos h]
        exact ⟨_, rfl⟩

/-- Witness for C1 at players `["a", "b", "c"]`, bound 2. -/
theorem exact_mode_validation_witness :
    ((0:Int) < 2 ∧ (2:Int) < ((["a", "b", "c"].length : Nat) : Int) →
      mkPlayerGroupConstraint ["a", "b", "c"] (.exactB 2) =
        .ok ⟨["a", "b", "c"], some 2, none, none⟩) ∧
    ((2:Int) ≤ 0 ∨ ((["a", "b", "c"].length : Nat) : Int) ≤ 2 →
      ∃ msg, mkPlayerGroupConstraint ["a", "b", "c"] (.exactB 2) =
        .error (.validation msg)) :=
  exact_mode_validation ["a", "b", "c"] 2 (by decide) (by decide)

/-- C2: range-mode construction succeeds when `1 ≤ lo < hi ≤ |P|` and fails
with a validation error when `hi = lo`, `hi < lo`, `lo < 1`, or either bound
exceeds `|P|`. -/
theorem range_mode_validation (players : List String) (lo hi : Int)
    (hne : players ≠ []) (hnd : players.Nodup) :
    (1 ≤ lo ∧ lo < hi ∧ hi ≤ (players.length : Int) →
      mkPlayerGroupConstraint players (.rangeB lo hi) =
        .ok ⟨players, none, some lo, some hi⟩) ∧
    (hi = lo ∨ hi < lo ∨ lo < 1 ∨ (players.length : Int) < lo ∨
        (players.length : Int) < hi →
      ∃ msg, mkPlayerGroupConstraint players (.rangeB lo hi) =
        .error (.validation msg)) := by
  have hlen : ¬ players.length = 0 := by
    simpa [List.length_eq_zero] using hne
  have hcard : players.length = players.toFinset.card :=
    (List.toFinset_card_of_nodup hnd).symm
  constructor
  · rintro ⟨h1, h2, h3⟩
    simp only [mkPlayerGroupConstraint, if_neg hlen,
      if_neg (not_not_intro hcard)]
    rw [if_neg (by omega), if_neg (by omega), if_neg (by omega),
      if_neg (by omega)]
  · intro h
    simp only [mkPlayerGroupConstraint, if_neg hlen,
      if_neg (not_not_intro hcard)]
    by_cases c1 : lo < 1
    · rw [if_pos c1]; exact ⟨_, rfl⟩
    · rw [if_neg c1]
      by_cases c2 : hi = lo
      · rw [if_pos c2]; exact ⟨_, rfl⟩
      · rw [if_neg c2]
        by_cases c3 : hi < lo
        · rw [if_pos c3]; exact ⟨_, rfl⟩
        · rw [if_neg c3]
          rw [if_pos (by omega)]
          exact ⟨_, rfl⟩

/-- Witness for C2 at players `["a", "b", "c"]`, range (1, 3). -/
theorem range_mode_validation_witness :
    ((1:Int) ≤ 1 ∧ (1:Int) < 3 ∧ (3:Int) ≤ ((["a", "b", "c"].length : Nat) : Int) →
      mkPlayerGroupConstraint ["a", "b", "c"] (.rangeB 1 3) =
        .ok ⟨["a", "b", "c"], none, some 1, some 3⟩) ∧
    ((3:Int) = 1 ∨ (3:Int) < 1 ∨ (1:Int) < 1 ∨
        ((["a", "b", "c"].length : Nat) : Int) < 1 ∨
        ((["a", "b", "c"].length : Nat) : Int) < 3 →
      ∃ msg, mkPlayerGroupConstraint ["a", "b", "c"] (.rangeB 1 3) =
        .error (.validation msg)) :=
  range_mode_validation ["a", "b", "c"] 1 3 (by decide) (by decide)

/-- C3: banning (non-exposure) a player already present in any group
constraint's player set, in `banned`, in `locked`, or in either exposure set
fails with a `ConstraintConflictException` and returns the state unchanged;
and a batch `ban` either adds all players (touching nothing else) or, on any
failure, returns the state unchanged. -/
theorem ban_conflict_and_atomicity (s : LineupConstraints) (p : String)
    (h : p ∈ s.banned ∨ p ∈ s.locked ∨ p ∈ s.banned_for_exposure ∨
      p ∈ s.locked_for_exposure ∨ ∃ c ∈ s.constraints, p ∈ c.players) :
    (∃ msg, s.ban (.one p) false = (s, some (.conflict msg))) ∧
    (∀ (qs : List String) (s2 : LineupConstraints) (e : Err),
      s.ban (.many qs) false = (s2, some e) → s2 = s) ∧
    (∀ (qs : List String) (s2 : LineupConstraints),
      s.ban (.many qs) false = (s2, none) →
        s2.banned = s.banned ∪ qs.toFinset ∧ s2.locked = s.locked ∧
        s2.banned_for_exposure = s.banned_for_exposure ∧
        s2.locked_for_exposure = s.locked_for_exposure ∧
        s2.constraints = s.constraints) := by
  refine ⟨?_, ?_, ?_⟩
  · have hmem : s.mem p = true := (s.mem_iff p).mpr (by tauto)
    simp only [LineupConstraints.ban, iterableify]
    simp [List.find?, hmem]
  · intro qs s2 e hb
    simp only [LineupConstraints.ban, iterableify] at hb
    split at hb
    · simp only [Prod.mk.injEq] at hb
      exact hb.1.symm
    · split at hb
      · simp only [Prod.mk.injEq] at hb
        exact hb.1.symm
      · simp only [Bool.false_eq_true, if_false, Prod.mk.injEq] at hb
        exact absurd hb.2 (by simp)
  · intro qs s2 hb
    simp only [LineupConstraints.ban, iterableify] at hb
    split at hb
    · exact absurd hb (by simp)
    · split at hb
      · exact absurd hb (by simp)
      · simp only [Bool.false_eq_true, if_false, Prod.mk.injEq] at hb
        rw [← hb.1]
        simp

/-- Witness for C3: banning `"a"` on a state whose `banned` set is `{"a"}`. -/
theorem ban_conflict_and_atomicity_witness :
    (∃ msg, (LineupConstraints.mk [] {"a"} ∅ ∅ ∅).ban (.one "a") false =
      (LineupConstraints.mk [] {"a"} ∅ ∅ ∅, some (.conflict msg))) ∧
    (∀ (qs : List String) (s2 : LineupConstraints) (e : Err),
      (LineupConstraints.mk [] {"a"} ∅ ∅ ∅).ban (.many qs) false = (s2, some e) →
        s2 = LineupConstraints.mk [] {"a"} ∅ ∅ ∅) ∧
    (∀ (qs : List String) (s2 : LineupConstraints),
      (LineupConstraints.mk [] {"a"} ∅ ∅ ∅).ban (.many qs) false = (s2, none) →
        s2.banned = (LineupConstraints.mk [] {"a"} ∅ ∅ ∅).banned ∪ qs.toFinset ∧
        s2.locked = (LineupConstraints.mk [] {"a"} ∅ ∅ ∅).locked ∧
        s2.banned_for_exposure = (LineupConstraints.mk [] {"a"} ∅ ∅ ∅).banned_for_exposure ∧
        s2.locked_for_exposure = (LineupConstraints.mk [] {"a"} ∅ ∅ ∅).locked_for_exposure ∧
        s2.constraints = (LineupConstraints.mk [] {"a"} ∅ ∅ ∅).constraints) :=
  ban_conflict_and_atomicity (LineupConstraints.mk [] {"a"} ∅ ∅ ∅) "a"
    (Or.inl (by simp))

/-- C9: `ban`/`lock` on a bare identifier behave exactly as on the singleton
collection holding it: `_iterableify` wraps the bare string, so it is never
iterated character-by-character. -/
theorem bare_identifier_singleton (s : LineupConstraints) (x : String)
    (fe : Bool) :
    s.ban (.one x) fe = s.ban (.many [x]) fe ∧
    s.lock (.one x) fe = s.lock (.many [x]) fe :=
  ⟨rfl, rfl⟩

/-- C4: adding a group structurally equal (equal player set and equal
`exact`/`lo`/`hi` fields) to a stored constraint fails with a
`ConstraintConflictException`, and `len` is unchanged by the failed call. -/
theorem duplicate_group_constraint_rejected (s : LineupConstraints)
    (players : List String) (bound : Bound) (c c0 : PlayerGroupConstraint)
    (hmk : mkPlayerGroupConstraint players bound = .ok c)
    (h0 : c0 ∈ s.constraints) (heq : c.eqPGC c0 = true) :
    (∃ msg, s.add_group_constraint players bound = (s, some (.conflict msg))) ∧
    (s.add_group_constraint players bound).1.len = s.len := by
  have hmain : ∃ msg,
      s.add_group_constraint players bound = (s, some (.conflict msg)) := by
    simp only [LineupConstraints.add_group_constraint, hmk]
    simp only [LineupConstraints.add, LineupConstraints.check_conflicts]
    cases hf : c.players.find?
        (fun p => decide (p ∈ s.locked) || decide (p ∈ s.banned)) with
    | some p => exact ⟨_, rfl⟩
    | none =>
      have hany : s.constraints.any (fun c2 => c.eqPGC c2) = true :=
        List.any_eq_true.mpr ⟨c0, h0, heq⟩
      rw [hany]
      simp
  obtain ⟨msg, hm⟩ := hmain
  exact ⟨⟨msg, hm⟩, by rw [hm]⟩

/-- Witness for C4: re-adding the stored group `["a", "b"]` with exact
bound 1. -/
theorem duplicate_group_constraint_rejected_witness :
    (∃ msg, (LineupConstraints.mk [⟨["a", "b"], some 1, none, none⟩] ∅ ∅ ∅ ∅).add_group_constraint
        ["b", "a"] (.exactB 1) =
      (LineupConstraints.mk [⟨["a", "b"], some 1, none, none⟩] ∅ ∅ ∅ ∅, some (.conflict msg))) ∧
    ((LineupConstraints.mk [⟨["a", "b"], some 1, none, none⟩] ∅ ∅ ∅ ∅).add_group_constraint
        ["b", "a"] (.exactB 1)).1.len =
      (LineupConstraints.mk [⟨["a", "b"], some 1, none, none⟩] ∅ ∅ ∅ ∅).len :=
  duplicate_group_constraint_rejected
    (LineupConstraints.mk [⟨["a", "b"], some 1, none, none⟩] ∅ ∅ ∅ ∅)
    ["b", "a"] (.exactB 1) ⟨["b", "a"], some 1, none, none⟩
    ⟨["a", "b"], some 1, none, none⟩ (by rfl) (by decide) (by decide)

/-- C5: a player banned only for exposure can still be placed into a new
group constraint: the group-constraint conflict check consults only the
non-exposure `banned` and `locked` sets, so the add succeeds. -/
theorem exposure_banned_player_still_groupable (s : LineupConstraints)
    (players : List String) (bound : Bound) (c : PlayerGroupConstraint)
    (x : String)
    (hmk : mkPlayerGroupConstraint players bound = .ok c)
    (hx1 : x ∈ players) (hx2 : x ∈ s.banned_for_exposure)
    (hfree : ∀ p ∈ players, p ∉ s.banned ∧ p ∉ s.locked)
    (hnd : ∀ c1 ∈ s.constraints, c.eqPGC c1 = false) :
    s.add_group_constraint players bound =
      ({ s with constraints := s.constraints ++ [c] }, none) :=
  add_group_constraint_ok s players bound c hmk hfree hnd

/-- Witness for C5: `"a"` is banned for exposure, yet the group
`["a", "b"]` with exact bound 1 is accepted. -/
theorem exposure_banned_player_still_groupable_witness :
    (LineupConstraints.mk [] ∅ ∅ {"a"} ∅).add_group_constraint
        ["a", "b"] (.exactB 1) =
      ({ LineupConstraints.mk [] ∅ ∅ {"a"} ∅ with
          constraints := [] ++ [⟨["a", "b"], some 1, none, none⟩] }, none) :=
  exposure_banned_player_still_groupable
    (LineupConstraints.mk [] ∅ ∅ {"a"} ∅) ["a", "b"] (.exactB 1)
    ⟨["a", "b"], some 1, none, none⟩ "a"
    (by rfl) (by decide) (by decide) (by decide) (by decide)

/-- C10: `add_group_constraint` does not compare the new group's players with
stored groups' players: a valid group overlapping (but not equal to) a stored
one is accepted when its players avoid the non-exposure ban/lock sets, so a
player may belong to two stored group constraints at once. -/
theorem overlapping_group_constraints_allowed (s : LineupConstraints)
    (players : List String) (bound : Bound) (c c0 : PlayerGroupConstraint)
    (y : String)
    (hmk : mkPlayerGroupConstraint players bound = .ok c)
    (hc0 : c0 ∈ s.constraints)
    (hy1 : y ∈ players) (hy2 : y ∈ c0.players)
    (hover : players.toFinset ≠ c0.players.toFinset)
    (hfree : ∀ p ∈ players, p ∉ s.banned ∧ p ∉ s.locked)
    (hnd : ∀ c1 ∈ s.constraints, c.eqPGC c1 = false) :
    s.add_group_constraint players bound =
      ({ s with constraints := s.constraints ++ [c] }, none) ∧
    c0 ∈ s.constraints ++ [c] ∧ c ∈ s.constraints ++ [c] ∧
    y ∈ c0.players ∧ y ∈ c.players := by
  refine ⟨add_group_constraint_ok s players bound c hmk hfree hnd,
    List.mem_append_left _ hc0, List.mem_append_right _ (by simp), hy2, ?_⟩
  rw [mkPlayerGroupConstraint_players players bound c hmk]
  exact hy1

/-- Witness for C10: the stored group `["a", "b"]` and the new group
`["b", "c"]` share player `"b"`. -/
theorem overlapping_group_constraints_allowed_witness :
    (LineupConstraints.mk [⟨["a", "b"], some 1, none, none⟩] ∅ ∅ ∅ ∅).add_group_constraint
        ["b", "c"] (.exactB 1) =
      ({ LineupConstraints.mk [⟨["a", "b"], some 1, none, none⟩] ∅ ∅ ∅ ∅ with
          constraints := [⟨["a", "b"], some 1, none, none⟩] ++
            [⟨["b", "c"], some 1, none, none⟩] }, none) ∧
    (⟨["a", "b"], some 1, none, none⟩ : PlayerGroupConstraint) ∈
      [⟨["a", "b"], some 1, none, none⟩] ++ [(⟨["b", "c"], some 1, none, none⟩ : PlayerGroupConstraint)] ∧
    (⟨["b", "c"], some 1, none, none⟩ : PlayerGroupConstraint) ∈
      [⟨["a", "b"], some 1, none, none⟩] ++ [(⟨["b", "c"], some 1, none, none⟩ : PlayerGroupConstraint)] ∧
    "b" ∈ (⟨["a", "b"], some 1, none, none⟩ : PlayerGroupConstraint).players ∧
    "b" ∈ (⟨["b", "c"], some 1, none, none⟩ : PlayerGroupConstraint).players :=
  overlapping_group_constraints_allowed
    (LineupConstraints.mk [⟨["a", "b"], some 1, none, none⟩] ∅ ∅ ∅ ∅)
    ["b", "c"] (.exactB 1) ⟨["b", "c"], some 1, none, none⟩
    ⟨["a", "b"], some 1, none, none⟩ "b"
    (by rfl) (by decide) (by decide) (by decide) (by decide) (by decide)
    (by decide)

/-- C6: after a successful `lock(x, for_exposure=True)`, `is_locked x` is
still `false` (exposure locks are invisible to it) while the generic
membership test (`__contains__`) reports `x`. -/
theorem lock_for_exposure_invisible_to_is_locked (s : LineupConstraints)
    (x : String) (h : s.mem x = false) :
    (s.lock (.one x) true).2 = none ∧
    (s.lock (.one x) true).1.is_locked x = false ∧
    (s.lock (.one x) true).1.mem x = true := by
  have hres : s.lock (.one x) true =
      ({ s with locked_for_exposure := s.locked_for_exposure ∪ {x} }, none) := by
    simp only [LineupConstraints.lock, iterableify]
    simp [List.find?, h]
  have hnl : x ∉ s.locked := by
    intro hc
    rw [(s.mem_iff x).mpr (Or.inl hc)] at h
    cases h
  rw [hres]
  refine ⟨rfl, ?_, ?_⟩
  · simp [LineupConstraints.is_locked, hnl]
  · simp [LineupConstraints.mem]

/-- Witness for C6: locking `"a"` for exposure on the empty constraint
set. -/
theorem lock_for_exposure_invisible_to_is_locked_witness :
    (LineupConstraints.init.lock (.one "a") true).2 = none ∧
    (LineupConstraints.init.lock (.one "a") true).1.is_locked "a" = false ∧
    (LineupConstraints.init.lock (.one "a") true).1.mem "a" = true :=
  lock_for_exposure_invisible_to_is_locked LineupConstraints.init "a" (by decide)

/-- C7: `clear_exposure_constraints` empties exactly the two exposure sets
and leaves the group-constraint list, `banned`, and `locked` unchanged. -/
theorem clear_exposure_constraints_frame (s : LineupConstraints) :
    s.clear_exposure_constraints.banned_for_exposure = ∅ ∧
    s.clear_exposure_constraints.locked_for_exposure = ∅ ∧
    s.clear_exposure_constraints.constraints = s.constraints ∧
    s.clear_exposure_constraints.banned = s.banned ∧
    s.clear_exposure_constraints.locked = s.locked := by
  simp [LineupConstraints.clear_exposure_constraints]

/-- C8: a traversal of the iterator returned by `__iter__` yields exactly
the stored group constraints, in insertion order, each once, then stops;
`__iter__` always returns a fresh cursor-0 iterator over the same list, so a
second, independent traversal yields the same full sequence. -/
theorem iteration_yields_constraints_in_order (s : LineupConstraints) :
    s.iter.drain = s.constraints := by
  rw [ConstraintIterator.drain_eq_drop]
  simp [LineupConstraints.iter]
